import Mathlib

/-!
A formal model of `dagster_dataform/resources.py` (the `DataformRepositoryResource`
of the dagster-dataform library): compilation-result resolution, asset/check graph
building from compilation actions, workflow-invocation request planning, and the
eager/lazy catalog lifecycle.

Protobuf conventions modelled throughout: an unset string field reads as `""`,
an unset repeated field as `[]`, and an unset message field inside a oneof reads
as the message's default value (so `action.relation` is the empty relation when
the action is an assertion); `if x:` on a protobuf message or string in Python
is truthiness, i.e. "not the default value".
-/

/-- A Dataform `Target`: the addressable identity of a compiled object. -/
structure Target where
  database : String
  schema : String
  name : String
deriving DecidableEq

/-- The `relation` payload of a compilation result action: the fields
`_process_assets` / `load_dataform_assets` read from it. -/
structure Relation where
  select_query : String
  tags : List String
  dependency_targets : List Target
deriving DecidableEq

/-- The `assertion` payload of a compilation result action: the fields
`_process_asset_checks` / `load_dataform_asset_check_specs` read from it. -/
structure Assertion where
  parent_action : Target
  dependency_targets : List Target
deriving DecidableEq

/-- One `CompilationResultAction`.  `relation` is always readable (protobuf
returns the default empty `Relation` when the action is an assertion);
`assertion = none` models the falsy (unset) assertion branch of
`if asset.assertion:`. -/
structure CompilationResultAction where
  target : Target
  relation : Relation
  assertion : Option Assertion
deriving DecidableEq

/-- The part of `CodeCompilationConfig` that `get_latest_compilation_result_name`
reads (the other config fields are never inspected by the resolution loop). -/
structure CodeCompilationConfig where
  table_prefix : String
deriving DecidableEq

/-- One entry of the `list_compilation_results` response, restricted to the three
fields the source reads: `name`, `git_commitish` and
`code_compilation_config.table_prefix`. -/
structure CompilationResult where
  name : String
  git_commitish : String
  code_compilation_config : CodeCompilationConfig
deriving DecidableEq

/-- The selection loop of `get_latest_compilation_result_name`: walk the
response list (already ordered `create_time desc` by the request) and return the
name of the first entry whose `git_commitish` equals the configured environment
and whose `code_compilation_config.table_prefix` is falsy (empty); `none` when
no entry matches (the Python method returns `None`). -/
def get_latest_compilation_result_name (environment : String) :
    List CompilationResult → Option String
  | [] => none
  | cr :: rest =>
    if cr.git_commitish = environment ∧ cr.code_compilation_config.table_prefix = "" then
      some cr.name
    else
      get_latest_compilation_result_name environment rest

/-- One Dagster `AssetSpec` as `_process_assets` / `load_dataform_assets` builds
it: key, kinds, the five metadata entries, group name, presence-only tags,
dependency names and the legacy freshness policy.
`metadata_compilation_result = none` models the eager path
(`load_dataform_assets`), whose inline loop omits the
`dataform_compilation_result` metadata entry. -/
structure AssetSpec where
  key : String
  kinds : List String
  metadata_project_id : String
  metadata_dataset : String
  metadata_asset_name : String
  metadata_docs_link : String
  metadata_sql_code : String
  metadata_compilation_result : Option String
  group_name : String
  tags : List (String × String)
  deps : List String
  maximum_lag_minutes : ℚ
deriving DecidableEq

/-- The record built inside the `try` block of `_process_assets` (and of the
identical inline loop of `load_dataform_assets`, which passes
`compilation_result_name = none`). -/
def assetSpecOf (lag : ℚ) (compilation_result_name : Option String)
    (a : CompilationResultAction) : AssetSpec :=
  { key := a.target.name
  , kinds := ["bigquery"]
  , metadata_project_id := a.target.database
  , metadata_dataset := a.target.schema
  , metadata_asset_name := a.target.name
  , metadata_docs_link :=
      "https://cvsdigital.atlassian.net/wiki/spaces/EDMLABCCM/pages/4616946342/Case+Activities+Entity+Data+Stream#"
        ++ a.target.name
  , metadata_sql_code := "```sql\n" ++ a.relation.select_query ++ "\n```"
  , metadata_compilation_result := compilation_result_name
  , group_name := a.target.schema
  , tags := a.relation.tags.map (fun t => (t, ""))
  , deps := a.relation.dependency_targets.map (fun t => t.name)
  , maximum_lag_minutes := lag }

/-- One iteration of the `try` block of `_process_assets`.  Dagster's
`AssetSpec` constructor validates the asset key; construction failure is
modelled as: the target name is empty (an empty `AssetKey` is rejected).  The
error value is the message the `except` branch logs, which carries the
offending target's name. -/
def mkAssetSpec (lag : ℚ) (compilation_result_name : Option String)
    (a : CompilationResultAction) : Except String AssetSpec :=
  if a.target.name = "" then
    .error ( "Failed to create asset spec for " ++ a.target.name)
  else
    .ok (assetSpecOf lag compilation_result_name a)

/-- The loop of `_process_assets`: every compilation action (of either kind) is
attempted; a per-item failure is caught, recorded (the source logs it) and the
item skipped while the batch continues.  Returns (built specs, logged skip
messages), both in input order. -/
def process_assets (lag : ℚ) (compilation_result_name : Option String) :
    List CompilationResultAction → List AssetSpec × List String
  | [] => ([], [])
  | a :: rest =>
    let r := process_assets lag compilation_result_name rest
    match mkAssetSpec lag compilation_result_name a with
    | .ok s => (s :: r.1, r.2)
    | .error e => (r.1, e :: r.2)

/-- The `AssetCheckSpec` built by `_process_asset_checks`:
`asset` is the `AssetKey` made from `assertion.parent_action.name`, `name` is
the assertion action's own target name. -/
structure AssetCheckSpec where
  asset : String
  name : String
deriving DecidableEq

/-- The `AssetChecksDefinition` built by `_process_asset_checks` /
`load_dataform_asset_check_specs`: the `asset_key` input key, the op name (the
assertion's target name, with an empty compute function), the single `spec`
output and `can_subset = False`. -/
structure AssetChecksDefinition where
  asset_key_input : String
  op_name : String
  spec : AssetCheckSpec
  can_subset : Bool
deriving DecidableEq

/-- The record built inside the `try` block of `_process_asset_checks`. -/
def assetChecksDefinitionOf (tgt : Target) (asr : Assertion) : AssetChecksDefinition :=
  { asset_key_input := asr.parent_action.name
  , op_name := tgt.name
  , spec := { asset := asr.parent_action.name, name := tgt.name }
  , can_subset := false }

/-- One iteration of the `try` block of `_process_asset_checks`.  Dagster
validates the `AssetKey` (the parent name) and the op/check name (the
assertion's target name); construction failure is modelled as: either name is
empty.  The error value is the message the `except` branch logs. -/
def mkAssetChecksDefinition (tgt : Target) (asr : Assertion) :
    Except String AssetChecksDefinition :=
  if asr.parent_action.name = "" ∨ tgt.name = "" then
    .error ( "Failed to create asset check spec for " ++ tgt.name)
  else
    .ok (assetChecksDefinitionOf tgt asr)

/-- The loop of `_process_asset_checks`: only actions with a truthy `assertion`
are attempted (`if asset.assertion:`); per-item failures are caught, recorded
and skipped.  Returns (built definitions, logged skip messages). -/
def process_asset_checks :
    List CompilationResultAction → List AssetChecksDefinition × List String
  | [] => ([], [])
  | a :: rest =>
    let r := process_asset_checks rest
    match a.assertion with
    | none => r
    | some asr =>
      match mkAssetChecksDefinition a.target asr with
      | .ok d => (d :: r.1, r.2)
      | .error e => (r.1, e :: r.2)

/-- One iteration of the `try` block of `load_dataform_asset_check_specs` (the
eager path).  Its first statement is
`logger.error(asset.assertion.dependency_targets[0].name)`, so an assertion with
no dependency targets raises `IndexError` inside the `try` and is skipped;
otherwise it behaves like the lazy `_process_asset_checks` iteration. -/
def mkAssetChecksDefinitionEager (tgt : Target) (asr : Assertion) :
    Except String AssetChecksDefinition :=
  if asr.dependency_targets = [] then
    .error ( "Failed to create asset check spec for " ++ tgt.name)
  else
    mkAssetChecksDefinition tgt asr

/-- The loop of `load_dataform_asset_check_specs` (eager path). -/
def process_asset_checks_eager :
    List CompilationResultAction → List AssetChecksDefinition × List String
  | [] => ([], [])
  | a :: rest =>
    let r := process_asset_checks_eager rest
    match a.assertion with
    | none => r
    | some asr =>
      match mkAssetChecksDefinitionEager a.target asr with
      | .ok d => (d :: r.1, r.2)
      | .error e => (r.1, e :: r.2)

/-- The remote Dataform service together with the per-client RPC counters, so
that "how many remote calls a code path makes" is part of the model.
`compilation_results` is the `list_compilation_results` response, already
ordered newest-first (`order_by="create_time desc"`); `actions_table` maps a
compilation result name to its `query_compilation_result_actions` response;
`source_actions` is what compiling the repository right now produces (used by
`create_compilation_result`). -/
structure RemoteState where
  compilation_results : List CompilationResult
  actions_table : List (String × List CompilationResultAction)
  source_actions : List CompilationResultAction
  listCalls : Nat
  createCalls : Nat
  queryCalls : Nat
deriving DecidableEq

/-- The `list_compilation_results` RPC: returns the newest-first snapshot list. -/
def list_compilation_results (s : RemoteState) : List CompilationResult × RemoteState :=
  (s.compilation_results, { s with listCalls := s.listCalls + 1 })

/-- The `query_compilation_result_actions` RPC: the actions of the named
compilation result (`[]` for an unknown name). -/
def query_compilation_result_actions (name : String) (s : RemoteState) :
    List CompilationResultAction × RemoteState :=
  (((s.actions_table.find? (fun p => p.1 == name)).map (fun p => p.2)).getD [],
   { s with queryCalls := s.queryCalls + 1 })

/-- The name the service assigns to the next created compilation result,
modelled as indexed by the running create counter. -/
def fresh_compilation_result_name (s : RemoteState) : String :=
  "compilationResults/" ++ toString s.createCalls

/-- `create_compilation_result` as the eager path calls it (only
`git_commitish` is passed; every `CodeCompilationConfig` field is left at its
default, so the created snapshot has an empty `table_prefix`).  Modelled
service semantics: the new snapshot is registered newest-first and its actions
are the project's current `source_actions`. -/
def create_compilation_result (git_commitish : String) (s : RemoteState) :
    CompilationResult × RemoteState :=
  let cr : CompilationResult :=
    { name := fresh_compilation_result_name s
    , git_commitish := git_commitish
    , code_compilation_config := { table_prefix := "" } }
  (cr,
   { s with
       compilation_results := cr :: s.compilation_results
     , actions_table := (cr.name, s.source_actions) :: s.actions_table
     , createCalls := s.createCalls + 1 })

/-- `get_latest_compilation_result_name` as a remote operation: one
`list_compilation_results` call, then the pure selection loop. -/
def get_latest_compilation_result_name_st (environment : String) (s : RemoteState) :
    Option String × RemoteState :=
  let (results, s1) := list_compilation_results s
  (get_latest_compilation_result_name environment results, s1)

/-- The error raised by `_fetch_latest_compilation_actions` when no compilation
result qualifies: the Python code raises with a message that names the searched
environment ("No existing compilation result found for branch '...'"), modelled
as a constructor carrying that environment reference. -/
inductive DataformError where
  | missingCompilation (environment : String)
deriving DecidableEq

/-- `_fetch_latest_compilation_actions`: resolve the latest qualifying
compilation result; on a falsy name (`None` or `""`) raise
`missingCompilation`, otherwise query and return the name with its actions. -/
def fetch_latest_compilation_actions (environment : String) (s : RemoteState) :
    Except DataformError (String × List CompilationResultAction) × RemoteState :=
  let (nameOpt, s1) := get_latest_compilation_result_name_st environment s
  match nameOpt with
  | none => (.error (.missingCompilation environment), s1)
  | some n =>
    if n = "" then
      (.error (.missingCompilation environment), s1)
    else
      let (acts, s2) := query_compilation_result_actions n s1
      (.ok (n, acts), s2)

/-- `_fetch_latest_compilation`: fetch the latest compilation's actions and
build asset specs from them, passing the compilation result name through to the
metadata. -/
def fetch_latest_compilation (environment : String) (lag : ℚ) (s : RemoteState) :
    Except DataformError (List AssetSpec) × RemoteState :=
  match fetch_latest_compilation_actions environment s with
  | (.error e, s1) => (.error e, s1)
  | (.ok (n, acts), s1) => (.ok (process_assets lag (some n) acts).1, s1)

/-- `query_compilation_result`: resolve the latest qualifying compilation
result; on a falsy name return `[]` (tolerated, not raised), otherwise query
its actions. -/
def query_compilation_result (environment : String) (s : RemoteState) :
    List CompilationResultAction × RemoteState :=
  let (nameOpt, s1) := get_latest_compilation_result_name_st environment s
  match nameOpt with
  | none => ([], s1)
  | some n =>
    if n = "" then ([], s1)
    else query_compilation_result_actions n s1

/-- `load_dataform_assets` (eager path): create a fresh compilation result for
the environment, re-resolve and query the latest qualifying compilation, and
build asset specs with its inline loop (which omits the
`dataform_compilation_result` metadata entry, hence `none`). -/
def load_dataform_assets (environment : String) (fresh_policy_lag_minutes : ℚ)
    (s : RemoteState) : List AssetSpec × RemoteState :=
  let (_, s1) := create_compilation_result environment s
  let (acts, s2) := query_compilation_result environment s1
  ((process_assets fresh_policy_lag_minutes none acts).1, s2)

/-- `load_dataform_asset_check_specs` (eager path): create a fresh compilation
result, re-resolve and query the latest qualifying compilation, and build the
check definitions with its own loop. -/
def load_dataform_asset_check_specs (environment : String) (s : RemoteState) :
    List AssetChecksDefinition × RemoteState :=
  let (_, s1) := create_compilation_result environment s
  let (acts, s2) := query_compilation_result environment s1
  ((process_asset_checks_eager acts).1, s2)

/-- The mutable fields of a `DataformRepositoryResource` that the catalog
lifecycle touches: configuration plus the two memoization cells `self._assets`
and `self._asset_checks`. -/
structure ResourceState where
  environment : String
  asset_fresh_policy_lag_minutes : ℚ
  skip_compilation : Bool
  _assets : Option (List AssetSpec)
  _asset_checks : Option (List AssetChecksDefinition)
deriving DecidableEq

/-- `DataformRepositoryResource.__init__`: with `skip_compilation` both cells
start empty (lazy); otherwise both loads run immediately (eager), each doing
its own create + resolve + query cycle. -/
def DataformRepositoryResource_init (environment : String) (lag : ℚ)
    (skip_compilation : Bool) (s : RemoteState) : ResourceState × RemoteState :=
  if skip_compilation then
    ({ environment := environment
     , asset_fresh_policy_lag_minutes := lag
     , skip_compilation := skip_compilation
     , _assets := none
     , _asset_checks := none }, s)
  else
    let a := load_dataform_assets environment lag s
    let c := load_dataform_asset_check_specs environment a.2
    ({ environment := environment
     , asset_fresh_policy_lag_minutes := lag
     , skip_compilation := skip_compilation
     , _assets := some a.1
     , _asset_checks := some c.1 }, c.2)

/-- The `assets` property: in lazy mode with an empty cell, fetch the latest
compilation (an exception propagates to the reader), build, memoize and return;
otherwise return the cell's content (`[]` when still empty). -/
def read_assets (r : ResourceState) (s : RemoteState) :
    Except DataformError (List AssetSpec) × ResourceState × RemoteState :=
  if r.skip_compilation = true ∧ r._assets = none then
    match fetch_latest_compilation r.environment r.asset_fresh_policy_lag_minutes s with
    | (.error e, s1) => (.error e, r, s1)
    | (.ok v, s1) => (.ok v, { r with _assets := some v }, s1)
  else
    match r._assets with
    | none => (.ok [], r, s)
    | some v => (.ok v, r, s)

/-- The `asset_checks` property: in lazy mode with an empty cell, fetch the
latest compilation's actions (the returned name is bound but unused), build the
check definitions, memoize and return; otherwise return the cell's content. -/
def read_asset_checks (r : ResourceState) (s : RemoteState) :
    Except DataformError (List AssetChecksDefinition) × ResourceState × RemoteState :=
  if r.skip_compilation = true ∧ r._asset_checks = none then
    match fetch_latest_compilation_actions r.environment s with
    | (.error e, s1) => (.error e, r, s1)
    | (.ok (_, acts), s1) =>
      let v := (process_asset_checks acts).1
      (.ok v, { r with _asset_checks := some v }, s1)
  else
    match r._asset_checks with
    | none => (.ok [], r, s)
    | some v => (.ok v, r, s)

/-- One entry of `included_targets` in `create_workflow_invocation`: either a
bare name string or a dict with optional `database` / `schema` / `name` keys. -/
inductive IncludedTarget where
  | str (name : String)
  | dict (database : Option String) (schema : Option String) (name : Option String)
deriving DecidableEq

/-- A dict field is copied into the protobuf `Target` only when truthy
(present and non-empty); an omitted field stays at the protobuf default `""`. -/
def dict_field : Option String → String
  | some v => if v ≠ "" then v else ""
  | none => ""

/-- The `Target` built from one `included_targets` entry: a bare string sets
only `name` (database and schema stay at the protobuf default `""`); a dict
sets exactly its truthy fields. -/
def included_target_to_target : IncludedTarget → Target
  | .str n => { database := "", schema := "", name := n }
  | .dict db sc n =>
    { database := dict_field db, schema := dict_field sc, name := dict_field n }

/-- The `InvocationConfig` message of a `WorkflowInvocation`.  Protobuf
defaults: empty target list, empty tag list, empty service account. -/
structure InvocationConfig where
  included_targets : List Target
  included_tags : List String
  transitive_dependencies_included : Bool
  transitive_dependents_included : Bool
  fully_refresh_incremental_tables_enabled : Bool
  service_account : String
deriving DecidableEq

/-- The `WorkflowInvocation` message sent by `create_workflow_invocation`:
`invocation_config = none` models the message field never being assigned. -/
structure WorkflowInvocation where
  compilation_result : String
  invocation_config : Option InvocationConfig
deriving DecidableEq

/-- The `CreateWorkflowInvocationRequest` sent to the client. -/
structure CreateWorkflowInvocationRequest where
  parent : String
  workflow_invocation : WorkflowInvocation
deriving DecidableEq

/-- The request-building logic of `create_workflow_invocation` (the RPC send
and response are not modelled; the claimed behaviour is about the request).
Python truthiness of the three optional arguments: a `None` or empty target
list, a `None` or empty tag list, and a `None` or empty service account are all
falsy, modelled as `[]` / `[]` / `""`.  The config is built, and attached to
the invocation, only when at least one of the three is truthy; the transitive
flags and the full-refresh flag always come from the (defaulted) keyword
arguments. -/
def create_workflow_invocation_request
    (project_id location repository_id : String)
    (compilation_result_name : String)
    (included_targets : List IncludedTarget := [])
    (included_tags : List String := [])
    (transitive_dependencies_included : Bool := true)
    (transitive_dependents_included : Bool := false)
    (fully_refresh_incremental_tables_enabled : Bool := false)
    (service_account : String := "") : CreateWorkflowInvocationRequest :=
  let workflow_invocation : WorkflowInvocation :=
    if included_targets ≠ [] ∨ included_tags ≠ [] ∨ service_account ≠ "" then
      { compilation_result := compilation_result_name
      , invocation_config := some
          { included_targets := included_targets.map included_target_to_target
          , included_tags := included_tags
          , transitive_dependencies_included := transitive_dependencies_included
          , transitive_dependents_included := transitive_dependents_included
          , fully_refresh_incremental_tables_enabled :=
              fully_refresh_incremental_tables_enabled
          , service_account := service_account } }
    else
      { compilation_result := compilation_result_name, invocation_config := none }
  { parent :=
      "projects/" ++ project_id ++ "/locations/" ++ location ++ "/repositories/"
        ++ repository_id
  , workflow_invocation := workflow_invocation }

/-- A well-formed relation action for table `a` (no dependencies). -/
def action_rel_a : CompilationResultAction :=
  { target := { database := "proj", schema := "dataset", name := "a" }
  , relation := { select_query := "select 1", tags := [], dependency_targets := [] }
  , assertion := none }

/-- A well-formed relation action for table `b`, depending on `a`. -/
def action_rel_b : CompilationResultAction :=
  { target := { database := "proj", schema := "dataset", name := "b" }
  , relation :=
      { select_query := "select * from a"
      , tags := []
      , dependency_targets := [{ database := "proj", schema := "dataset", name := "a" }] }
  , assertion := none }

/-- A well-formed assertion action named `check_a` whose parent is `a`; its
`relation` field is the protobuf default (the action is an assertion). -/
def action_assert_check_a : CompilationResultAction :=
  { target := { database := "proj", schema := "dataset_assertions", name := "check_a" }
  , relation := { select_query := "", tags := [], dependency_targets := [] }
  , assertion := some
      { parent_action := { database := "proj", schema := "dataset", name := "a" }
      , dependency_targets := [{ database := "proj", schema := "dataset", name := "a" }] } }

/-- A malformed action: an empty target name, which Dagster's asset-key
validation rejects during spec construction. -/
def action_malformed : CompilationResultAction :=
  { target := { database := "proj", schema := "dataset", name := "" }
  , relation := { select_query := "select 2", tags := [], dependency_targets := [] }
  , assertion := none }

/-- A malformed assertion action: its parent target name is empty, so building
the parent `AssetKey` fails during check construction. -/
def action_malformed_assertion : CompilationResultAction :=
  { target := { database := "proj", schema := "dataset_assertions", name := "check_bad" }
  , relation := { select_query := "", tags := [], dependency_targets := [] }
  , assertion := some
      { parent_action := { database := "", schema := "", name := "" }
      , dependency_targets := [] } }

/-- The end-to-end example snapshot: relations `a` and `b` (`b` depends on
`a`) plus one assertion `check_a` on `a`. -/
def dev_actions : List CompilationResultAction :=
  [action_rel_a, action_rel_b, action_assert_check_a]

/-- A remote state holding exactly one compilation result, for environment
`dev`, whose actions are `dev_actions`. -/
def dev_remote : RemoteState :=
  { compilation_results :=
      [{ name := "compilationResults/dev1"
       , git_commitish := "dev"
       , code_compilation_config := { table_prefix := "" } }]
  , actions_table := [("compilationResults/dev1", dev_actions)]
  , source_actions := dev_actions
  , listCalls := 0
  , createCalls := 0
  , queryCalls := 0 }

/-- A freshly constructed lazy resource for environment `dev`: both cells
empty. -/
def dev_resource : ResourceState :=
  { environment := "dev"
  , asset_fresh_policy_lag_minutes := 1440
  , skip_compilation := true
  , _assets := none
  , _asset_checks := none }

/-- A remote state with no compilation results at all. -/
def empty_remote : RemoteState :=
  { compilation_results := []
  , actions_table := []
  , source_actions := []
  , listCalls := 0
  , createCalls := 0
  , queryCalls := 0 }

/-- A check-construction well-formedness test: a non-assertion action is
vacuously fine; an assertion action must carry a non-empty own name and a
non-empty parent name for Dagster's name validation to accept it. -/
def check_action_ok (a : CompilationResultAction) : Bool :=
  match a.assertion with
  | none => true
  | some asr => a.target.name != "" && asr.parent_action.name != ""

theorem process_assets_all_ok (lag : ℚ) (crn : Option String) :
    ∀ l : List CompilationResultAction, (∀ a ∈ l, a.target.name ≠ "") →
      process_assets lag crn l = (l.map (assetSpecOf lag crn), []) := by
  intro l
  induction l with
  | nil => intro _; rfl
  | cons a rest ih =>
    intro h
    have ha : ¬ (a.target.name = "") := h a (List.mem_cons_self a rest)
    have hr := ih (fun x hx => h x (List.mem_cons_of_mem a hx))
    simp [process_assets, mkAssetSpec, ha, hr]

theorem process_assets_append (lag : ℚ) (crn : Option String)
    (l1 l2 : List CompilationResultAction) :
    process_assets lag crn (l1 ++ l2)
      = ((process_assets lag crn l1).1 ++ (process_assets lag crn l2).1,
         (process_assets lag crn l1).2 ++ (process_assets lag crn l2).2) := by
  induction l1 with
  | nil => simp [process_assets]
  | cons a rest ih =>
    cases h : mkAssetSpec lag crn a with
    | ok s => simp [process_assets, h, ih]
    | error e => simp [process_assets, h, ih]

theorem process_asset_checks_all_ok :
    ∀ l : List CompilationResultAction, (∀ a ∈ l, check_action_ok a = true) →
      process_asset_checks l
        = (l.filterMap
            (fun a => a.assertion.map (fun asr => assetChecksDefinitionOf a.target asr)),
           []) := by
  intro l
  induction l with
  | nil => intro _; rfl
  | cons a rest ih =>
    intro h
    have hr := ih (fun x hx => h x (List.mem_cons_of_mem a hx))
    have ha := h a (List.mem_cons_self a rest)
    cases hasr : a.assertion with
    | none => simp [process_asset_checks, hasr, hr]
    | some asr =>
      rw [check_action_ok, hasr] at ha
      simp only [bne_iff_ne, ne_eq, Bool.and_eq_true, decide_eq_true_eq] at ha
      have hcond : ¬ (asr.parent_action.name = "" ∨ a.target.name = "") := by
        rcases ha with ⟨h1, h2⟩
        intro hor
        rcases hor with h3 | h3
        · exact h2 h3
        · exact h1 h3
      simp [process_asset_checks, hasr, mkAssetChecksDefinition, hcond, hr]

theorem process_asset_checks_append (l1 l2 : List CompilationResultAction) :
    process_asset_checks (l1 ++ l2)
      = ((process_asset_checks l1).1 ++ (process_asset_checks l2).1,
         (process_asset_checks l1).2 ++ (process_asset_checks l2).2) := by
  induction l1 with
  | nil => simp [process_asset_checks]
  | cons a rest ih =>
    cases hasr : a.assertion with
    | none => simp [process_asset_checks, hasr, ih]
    | some asr =>
      cases h : mkAssetChecksDefinition a.target asr with
      | ok d => simp [process_asset_checks, hasr, h, ih]
      | error e => simp [process_asset_checks, hasr, h, ih]

theorem zip_map_self {α β : Type} (f : α → β) :
    ∀ l : List α, ∀ p ∈ (l.map f).zip l, p.1 = f p.2 := by
  intro l
  induction l with
  | nil => intro p hp; cases hp
  | cons a rest ih =>
    intro p hp
    rw [List.map_cons, List.zip_cons_cons] at hp
    rcases List.mem_cons.mp hp with h | h
    · rw [h]
    · exact ih p h

/-- Claim C1: for every list of compilation snapshots returned by the service,
`get_latest_compilation_result_name` returns the name of the first entry in
input order whose `git_commitish` equals the requested environment and whose
`table_prefix` is empty (default filtering), and on an empty list — hence also
on any list with no such entry, since `List.find?` is `none` exactly then — it
returns `none` ("not found"); the function is total, so it never raises. -/
theorem get_latest_first_match (environment : String)
    (results : List CompilationResult) :
    get_latest_compilation_result_name environment results
      = (results.find? (fun cr =>
            decide (cr.git_commitish = environment
              ∧ cr.code_compilation_config.table_prefix = ""))).map
          (fun cr => cr.name)
    ∧ get_latest_compilation_result_name environment [] = none := by
  refine ⟨?_, rfl⟩
  induction results with
  | nil => rfl
  | cons cr rest ih =>
    by_cases h : cr.git_commitish = environment
        ∧ cr.code_compilation_config.table_prefix = ""
    · simp [get_latest_compilation_result_name, List.find?, h]
    · simp [get_latest_compilation_result_name, List.find?, h, ih]

/-- Claim C3: on a list of N well-formed Relation actions (no assertions),
the builder yields exactly N asset nodes and 0 check nodes, and each produced
asset's dependency list equals the names of its relation's declared dependency
targets. -/
theorem build_relations_only (lag : ℚ) (crn : Option String)
    (l : List CompilationResultAction)
    (hrel : ∀ a ∈ l, a.assertion = none)
    (hwf : ∀ a ∈ l, a.target.name ≠ "") :
    (process_assets lag crn l).1.length = l.length
    ∧ (process_asset_checks l).1 = []
    ∧ ∀ p ∈ (process_assets lag crn l).1.zip l,
        p.1.deps = p.2.relation.dependency_targets.map (fun t => t.name) := by
  have h1 := process_assets_all_ok lag crn l hwf
  have h2 := process_asset_checks_all_ok l (fun a ha => by
    rw [check_action_ok, hrel a ha])
  refine ⟨by rw [h1]; simp, ?_, ?_⟩
  · rw [h2]
    exact List.filterMap_eq_nil_iff.mpr (fun a ha => by rw [hrel a ha]; rfl)
  · intro p hp
    rw [h1] at hp
    rw [zip_map_self (assetSpecOf lag crn) l p hp]
    rfl

theorem build_relations_only_witness :
    (process_assets 1440 none [action_rel_a, action_rel_b]).1.length
        = [action_rel_a, action_rel_b].length
    ∧ (process_asset_checks [action_rel_a, action_rel_b]).1 = []
    ∧ ∀ p ∈ (process_assets 1440 none [action_rel_a, action_rel_b]).1.zip
          [action_rel_a, action_rel_b],
        p.1.deps = p.2.relation.dependency_targets.map (fun t => t.name) :=
  build_relations_only 1440 none [action_rel_a, action_rel_b]
    (by decide) (by decide)

/-- Claim C4 counterexample: the claim says an Assertion action never yields an
asset node, but `_process_assets` iterates over every compilation action
without discriminating by kind, so the assertion action `check_a` (whose
`assertion` field is set) produces an asset node keyed by its own target
name. -/
theorem assertion_yields_asset_node :
    action_assert_check_a.assertion ≠ none
    ∧ (process_assets 1440 none [action_assert_check_a]).1.map (fun sp => sp.key)
        = ["check_a"] := by
  exact ⟨by decide, rfl⟩

/-- Claim C4 (amended): `_process_assets` produces one asset node per action
whose spec construction succeeds, regardless of the action's kind — an
Assertion action also yields an asset node (built from its target and its
default-empty relation fields). -/
theorem one_asset_node_per_action (lag : ℚ) (crn : Option String)
    (l : List CompilationResultAction)
    (hwf : ∀ a ∈ l, a.target.name ≠ "") :
    (process_assets lag crn l).1 = l.map (assetSpecOf lag crn)
    ∧ (process_assets lag crn l).1.length = l.length := by
  have h := process_assets_all_ok lag crn l hwf
  exact ⟨by rw [h], by rw [h]; simp⟩

theorem one_asset_node_per_action_witness :
    (process_assets 1440 none [action_rel_a, action_assert_check_a]).1
        = [action_rel_a, action_assert_check_a].map (assetSpecOf 1440 none)
    ∧ (process_assets 1440 none [action_rel_a, action_assert_check_a]).1.length
        = [action_rel_a, action_assert_check_a].length :=
  one_asset_node_per_action 1440 none [action_rel_a, action_assert_check_a]
    (by decide)

/-- Claim C5: a batch with one malformed action among K valid ones yields
exactly the K nodes of the valid actions, in order; the malformed item's
failure is recorded (the source logs it with the offending target's name) and
the item skipped while the batch continues — and since the builders are total
functions here, no per-item exception escapes them.  Stated for both the asset
builder (a malformed target name) and the check builder (a malformed parent
name). -/
theorem build_skips_malformed (lag : ℚ) (crn : Option String)
    (pre post : List CompilationResultAction) (bad : CompilationResultAction)
    (preC postC : List CompilationResultAction) (badC : CompilationResultAction)
    (asrC : Assertion)
    (hpre : ∀ a ∈ pre ++ post, a.target.name ≠ "")
    (hbad : bad.target.name = "")
    (hpreC : ∀ a ∈ preC ++ postC, check_action_ok a = true)
    (hbadC : badC.assertion = some asrC)
    (hbadCp : asrC.parent_action.name = "") :
    (process_assets lag crn (pre ++ bad :: post)).1
        = (pre ++ post).map (assetSpecOf lag crn)
    ∧ (process_assets lag crn (pre ++ bad :: post)).2
        = ["Failed to create asset spec for " ++ bad.target.name]
    ∧ (process_asset_checks (preC ++ badC :: postC)).1
        = (preC ++ postC).filterMap
            (fun a => a.assertion.map (fun asr => assetChecksDefinitionOf a.target asr))
    ∧ (process_asset_checks (preC ++ badC :: postC)).2
        = ["Failed to create asset check spec for " ++ badC.target.name] := by
  have hpre1 : ∀ a ∈ pre, a.target.name ≠ "" :=
    fun a ha => hpre a (List.mem_append_left post ha)
  have hpost1 : ∀ a ∈ post, a.target.name ≠ "" :=
    fun a ha => hpre a (List.mem_append_right pre ha)
  have hpreC1 : ∀ a ∈ preC, check_action_ok a = true :=
    fun a ha => hpreC a (List.mem_append_left postC ha)
  have hpostC1 : ∀ a ∈ postC, check_action_ok a = true :=
    fun a ha => hpreC a (List.mem_append_right preC ha)
  have hbadspec : mkAssetSpec lag crn bad
      = .error ("Failed to create asset spec for " ++ bad.target.name) := by
    rw [mkAssetSpec, if_pos hbad]
  have hbadcheck : mkAssetChecksDefinition badC.target asrC
      = .error ("Failed to create asset check spec for " ++ badC.target.name) := by
    rw [mkAssetChecksDefinition, if_pos (Or.inl hbadCp)]
  have ha := process_assets_append lag crn pre (bad :: post)
  have hc := process_asset_checks_append preC (badC :: postC)
  rw [process_assets_all_ok lag crn pre hpre1] at ha
  rw [process_asset_checks_all_ok preC hpreC1] at hc
  have hmid : process_assets lag crn (bad :: post)
      = ((post).map (assetSpecOf lag crn),
         ["Failed to create asset spec for " ++ bad.target.name]) := by
    rw [process_assets, hbadspec, process_assets_all_ok lag crn post hpost1]
  have hmidC : process_asset_checks (badC :: postC)
      = (postC.filterMap
          (fun a => a.assertion.map (fun asr => assetChecksDefinitionOf a.target asr)),
         ["Failed to create asset check spec for " ++ badC.target.name]) := by
    simp only [process_asset_checks, hbadC, hbadcheck,
      process_asset_checks_all_ok postC hpostC1]
  rw [hmid] at ha
  rw [hmidC] at hc
  refine ⟨?_, ?_, ?_, ?_⟩
  · rw [ha]; simp
  · rw [ha]; simp
  · rw [hc]; simp
  · rw [hc]; simp

theorem build_skips_malformed_witness :
    (process_assets 1440 none ([action_rel_a] ++ action_malformed :: [action_rel_b])).1
        = ([action_rel_a] ++ [action_rel_b]).map (assetSpecOf 1440 none)
    ∧ (process_assets 1440 none ([action_rel_a] ++ action_malformed :: [action_rel_b])).2
        = ["Failed to create asset spec for " ++ action_malformed.target.name]
    ∧ (process_asset_checks
          ([action_assert_check_a] ++ action_malformed_assertion :: [])).1
        = ([action_assert_check_a] ++ []).filterMap
            (fun (a : CompilationResultAction) =>
              a.assertion.map (fun asr => assetChecksDefinitionOf a.target asr))
    ∧ (process_asset_checks
          ([action_assert_check_a] ++ action_malformed_assertion :: [])).2
        = ["Failed to create asset check spec for "
            ++ action_malformed_assertion.target.name] :=
  build_skips_malformed 1440 none [action_rel_a] [action_rel_b] action_malformed
    [action_assert_check_a] [] action_malformed_assertion
    { parent_action := { database := "", schema := "", name := "" }
    , dependency_targets := [] }
    (by decide) (by decide) (by decide) (by decide) (by decide)

/-- Claim C10: a produced asset node's key is the action target's bare name
only, and dependency edges are bare names only; consequently two actions that
differ only in database or schema produce asset nodes with the same key. -/
theorem asset_key_is_bare_name (lag : ℚ) (crn : Option String)
    (a : CompilationResultAction) :
    ((process_assets lag crn [a]).1.map (fun sp => sp.key)
        = if a.target.name = "" then [] else [a.target.name])
    ∧ ((process_assets lag crn [a]).1.map (fun sp => sp.deps)
        = if a.target.name = "" then []
          else [a.relation.dependency_targets.map (fun t => t.name)])
    ∧ ∀ (db1 sc1 db2 sc2 : String) (nm : String) (rel : Relation)
        (asr : Option Assertion),
        (process_assets lag crn
            [{ target := { database := db1, schema := sc1, name := nm }
             , relation := rel, assertion := asr }]).1.map (fun sp => sp.key)
          = (process_assets lag crn
              [{ target := { database := db2, schema := sc2, name := nm }
               , relation := rel, assertion := asr }]).1.map (fun sp => sp.key) := by
  refine ⟨?_, ?_, ?_⟩
  · by_cases h : a.target.name = ""
    · simp [process_assets, mkAssetSpec, h]
    · simp [process_assets, mkAssetSpec, h, assetSpecOf]
  · by_cases h : a.target.name = ""
    · simp [process_assets, mkAssetSpec, h]
    · simp [process_assets, mkAssetSpec, h, assetSpecOf]
  · intro db1 sc1 db2 sc2 nm rel asr
    by_cases h : nm = ""
    · simp [process_assets, mkAssetSpec, h]
    · simp [process_assets, mkAssetSpec, h, assetSpecOf]

/-- Claim C6: `create_workflow_invocation` with no targets, no tags and no
run-as override produces a request whose invocation carries no selection
object at all; with `targets = ["t"]` it produces a request whose selection
holds exactly one bare-name target and the default flags
`transitive_dependencies_included = true`,
`transitive_dependents_included = false`,
`fully_refresh_incremental_tables_enabled = false`. -/
theorem plan_selection_semantics (project_id location repository_id : String)
    (compilation_result_name : String) :
    (create_workflow_invocation_request project_id location repository_id
        compilation_result_name).workflow_invocation.invocation_config = none
    ∧ (create_workflow_invocation_request project_id location repository_id
        compilation_result_name [IncludedTarget.str "t"]).workflow_invocation
      = { compilation_result := compilation_result_name
        , invocation_config := some
            { included_targets := [{ database := "", schema := "", name := "t" }]
            , included_tags := []
            , transitive_dependencies_included := true
            , transitive_dependents_included := false
            , fully_refresh_incremental_tables_enabled := false
            , service_account := "" } } := by
  exact ⟨rfl, rfl⟩

/-- Claim C2: in the lazy-load path, whenever resolution finds no qualifying
compilation result, `_fetch_latest_compilation_actions` raises (here: returns)
the missing-compilation error carrying the environment reference searched, and
so reading either `assets` or `asset_checks` surfaces that same error instead
of silently tolerating the missing snapshot. -/
theorem lazy_missing_compilation_error (r : ResourceState) (s : RemoteState)
    (hskip : r.skip_compilation = true)
    (ha : r._assets = none) (hc : r._asset_checks = none)
    (hn : (get_latest_compilation_result_name_st r.environment s).1 = none) :
    (fetch_latest_compilation_actions r.environment s).1
        = .error (.missingCompilation r.environment)
    ∧ (read_assets r s).1 = .error (.missingCompilation r.environment)
    ∧ (read_asset_checks r s).1 = .error (.missingCompilation r.environment) := by
  rw [get_latest_compilation_result_name_st, list_compilation_results] at hn
  have hf : fetch_latest_compilation_actions r.environment s
      = (.error (.missingCompilation r.environment),
         { s with listCalls := s.listCalls + 1 }) := by
    rw [fetch_latest_compilation_actions, get_latest_compilation_result_name_st,
      list_compilation_results]
    simp only at hn ⊢
    rw [hn]
  refine ⟨by rw [hf], ?_, ?_⟩
  · rw [read_assets, if_pos ⟨hskip, ha⟩, fetch_latest_compilation, hf]
  · rw [read_asset_checks, if_pos ⟨hskip, hc⟩, hf]

theorem lazy_missing_compilation_error_witness :
    (fetch_latest_compilation_actions "dev" empty_remote).1
        = .error (.missingCompilation "dev")
    ∧ (read_assets dev_resource empty_remote).1
        = .error (.missingCompilation "dev")
    ∧ (read_asset_checks dev_resource empty_remote).1
        = .error (.missingCompilation "dev") :=
  lazy_missing_compilation_error dev_resource empty_remote rfl rfl rfl rfl

/-- Claim C7: for every Assertion action (that passes Dagster's name
validation) the builder constructs exactly one check definition, named after
the assertion's own target name and bound to the assertion's parent asset —
the built list is exactly the in-order image of the assertion actions.  And
end-to-end, for the environment `dev` snapshot with relations `a`, `b`
(`b` depends on `a`) plus one assertion `check_a` on `a`, the lazily built
catalog contains asset `a` with no deps, asset `b` with deps `["a"]`, and the
single check `check_a` bound to asset `a`. -/
theorem check_nodes_from_assertions :
    (∀ l : List CompilationResultAction, (∀ a ∈ l, check_action_ok a = true) →
        (process_asset_checks l).1
          = l.filterMap (fun (a : CompilationResultAction) =>
              a.assertion.map (fun asr => assetChecksDefinitionOf a.target asr)))
    ∧ (∃ assets, (read_assets dev_resource dev_remote).1 = .ok assets
        ∧ ("a", ([] : List String)) ∈ assets.map (fun sp => (sp.key, sp.deps))
        ∧ ("b", ["a"]) ∈ assets.map (fun sp => (sp.key, sp.deps)))
    ∧ (read_asset_checks dev_resource dev_remote).1
        = .ok [{ asset_key_input := "a"
               , op_name := "check_a"
               , spec := { asset := "a", name := "check_a" }
               , can_subset := false }] := by
  refine ⟨?_, ⟨_, rfl, by decide, by decide⟩, rfl⟩
  intro l h
  rw [process_asset_checks_all_ok l h]

theorem check_nodes_from_assertions_witness :
    (process_asset_checks dev_actions).1
      = dev_actions.filterMap (fun (a : CompilationResultAction) =>
          a.assertion.map (fun asr => assetChecksDefinitionOf a.target asr)) :=
  check_nodes_from_assertions.1 dev_actions (by decide)

/-- Claim C8: in lazy mode, the first read of `assets` (respectively
`asset_checks`) performs exactly one resolve (list) + fetch (query) cycle with
no create, memoizes its result in its own cell without touching the other
cell, and a second read returns the very same value with no state change (so
no further remote calls) — assets and asset checks load independently. -/
theorem lazy_reads_memoized (r : ResourceState) (s : RemoteState) (n : String)
    (hskip : r.skip_compilation = true)
    (ha : r._assets = none) (hc : r._asset_checks = none)
    (hn : (get_latest_compilation_result_name_st r.environment s).1 = some n)
    (hne : n ≠ "") :
    ((read_assets r s).2.2.listCalls = s.listCalls + 1
      ∧ (read_assets r s).2.2.queryCalls = s.queryCalls + 1
      ∧ (read_assets r s).2.2.createCalls = s.createCalls)
    ∧ (∃ v, (read_assets r s).1 = .ok v
        ∧ (read_assets r s).2.1._assets = some v
        ∧ (read_assets r s).2.1._asset_checks = r._asset_checks
        ∧ read_assets (read_assets r s).2.1 (read_assets r s).2.2
            = (.ok v, (read_assets r s).2.1, (read_assets r s).2.2))
    ∧ ((read_asset_checks r s).2.2.listCalls = s.listCalls + 1
      ∧ (read_asset_checks r s).2.2.queryCalls = s.queryCalls + 1
      ∧ (read_asset_checks r s).2.2.createCalls = s.createCalls)
    ∧ (∃ w, (read_asset_checks r s).1 = .ok w
        ∧ (read_asset_checks r s).2.1._asset_checks = some w
        ∧ (read_asset_checks r s).2.1._assets = r._assets
        ∧ read_asset_checks (read_asset_checks r s).2.1 (read_asset_checks r s).2.2
            = (.ok w, (read_asset_checks r s).2.1, (read_asset_checks r s).2.2)) := by
  have hn' : get_latest_compilation_result_name r.environment s.compilation_results
      = some n := by
    rw [get_latest_compilation_result_name_st, list_compilation_results] at hn
    simpa using hn
  have hfetch : fetch_latest_compilation_actions r.environment s
      = (.ok (n, ((s.actions_table.find? (fun p => p.1 == n)).map (fun p => p.2)).getD []),
         { s with listCalls := s.listCalls + 1, queryCalls := s.queryCalls + 1 }) := by
    simp only [fetch_latest_compilation_actions, get_latest_compilation_result_name_st,
      list_compilation_results, hn', if_neg hne, query_compilation_result_actions]
  have hra : read_assets r s
      = (.ok (process_assets r.asset_fresh_policy_lag_minutes (some n)
            (((s.actions_table.find? (fun p => p.1 == n)).map (fun p => p.2)).getD [])).1,
         { r with _assets := some (process_assets r.asset_fresh_policy_lag_minutes (some n)
            (((s.actions_table.find? (fun p => p.1 == n)).map (fun p => p.2)).getD [])).1 },
         { s with listCalls := s.listCalls + 1, queryCalls := s.queryCalls + 1 }) := by
    rw [read_assets, if_pos ⟨hskip, ha⟩, fetch_latest_compilation, hfetch]
  have hrc : read_asset_checks r s
      = (.ok (process_asset_checks
            (((s.actions_table.find? (fun p => p.1 == n)).map (fun p => p.2)).getD [])).1,
         { r with _asset_checks := some (process_asset_checks
            (((s.actions_table.find? (fun p => p.1 == n)).map (fun p => p.2)).getD [])).1 },
         { s with listCalls := s.listCalls + 1, queryCalls := s.queryCalls + 1 }) := by
    rw [read_asset_checks, if_pos ⟨hskip, hc⟩, hfetch]
  refine ⟨?_, ?_, ?_, ?_⟩
  · rw [hra]
    exact ⟨rfl, rfl, rfl⟩
  · refine ⟨_, by rw [hra], by rw [hra], by rw [hra], ?_⟩
    rw [hra]
    rw [read_assets]
    rw [if_neg (fun h => Option.noConfusion h.2)]
  · rw [hrc]
    exact ⟨rfl, rfl, rfl⟩
  · refine ⟨_, by rw [hrc], by rw [hrc], by rw [hrc], ?_⟩
    rw [hrc]
    rw [read_asset_checks]
    rw [if_neg (fun h => Option.noConfusion h.2)]

theorem lazy_reads_memoized_witness :
    ((read_assets dev_resource dev_remote).2.2.listCalls = dev_remote.listCalls + 1
      ∧ (read_assets dev_resource dev_remote).2.2.queryCalls = dev_remote.queryCalls + 1
      ∧ (read_assets dev_resource dev_remote).2.2.createCalls = dev_remote.createCalls)
    ∧ (∃ v, (read_assets dev_resource dev_remote).1 = .ok v
        ∧ (read_assets dev_resource dev_remote).2.1._assets = some v
        ∧ (read_assets dev_resource dev_remote).2.1._asset_checks
            = dev_resource._asset_checks
        ∧ read_assets (read_assets dev_resource dev_remote).2.1
              (read_assets dev_resource dev_remote).2.2
            = (.ok v, (read_assets dev_resource dev_remote).2.1,
               (read_assets dev_resource dev_remote).2.2))
    ∧ ((read_asset_checks dev_resource dev_remote).2.2.listCalls
          = dev_remote.listCalls + 1
      ∧ (read_asset_checks dev_resource dev_remote).2.2.queryCalls
          = dev_remote.queryCalls + 1
      ∧ (read_asset_checks dev_resource dev_remote).2.2.createCalls
          = dev_remote.createCalls)
    ∧ (∃ w, (read_asset_checks dev_resource dev_remote).1 = .ok w
        ∧ (read_asset_checks dev_resource dev_remote).2.1._asset_checks = some w
        ∧ (read_asset_checks dev_resource dev_remote).2.1._assets
            = dev_resource._assets
        ∧ read_asset_checks (read_asset_checks dev_resource dev_remote).2.1
              (read_asset_checks dev_resource dev_remote).2.2
            = (.ok w, (read_asset_checks dev_resource dev_remote).2.1,
               (read_asset_checks dev_resource dev_remote).2.2)) :=
  lazy_reads_memoized dev_resource dev_remote "compilationResults/dev1"
    rfl rfl rfl rfl (by decide)

theorem fresh_name_ne_empty (s : RemoteState) : fresh_compilation_result_name s ≠ "" := by
  rw [fresh_compilation_result_name]
  intro h
  have h2 := congrArg String.length h
  rw [String.length_append] at h2
  have h3 : ("compilationResults/").length = 19 := rfl
  have h4 : ("" : String).length = 0 := rfl
  omega

theorem get_latest_on_created (environment nm : String)
    (rest : List CompilationResult) :
    get_latest_compilation_result_name environment
      ({ name := nm
       , git_commitish := environment
       , code_compilation_config := { table_prefix := "" } } :: rest) = some nm := by
  simp [get_latest_compilation_result_name]

theorem load_dataform_assets_eq (environment : String) (lag : ℚ) (s : RemoteState) :
    load_dataform_assets environment lag s
      = ((process_assets lag none s.source_actions).1,
         { s with
             compilation_results :=
               { name := fresh_compilation_result_name s
               , git_commitish := environment
               , code_compilation_config := { table_prefix := "" } }
                 :: s.compilation_results
           , actions_table :=
               (fresh_compilation_result_name s, s.source_actions) :: s.actions_table
           , listCalls := s.listCalls + 1
           , createCalls := s.createCalls + 1
           , queryCalls := s.queryCalls + 1 }) := by
  simp only [load_dataform_assets, create_compilation_result,
    query_compilation_result, get_latest_compilation_result_name_st,
    list_compilation_results, get_latest_on_created]
  rw [if_neg (fresh_name_ne_empty s)]
  simp only [query_compilation_result_actions, List.find?]
  simp

theorem load_dataform_asset_check_specs_eq (environment : String) (s : RemoteState) :
    load_dataform_asset_check_specs environment s
      = ((process_asset_checks_eager s.source_actions).1,
         { s with
             compilation_results :=
               { name := fresh_compilation_result_name s
               , git_commitish := environment
               , code_compilation_config := { table_prefix := "" } }
                 :: s.compilation_results
           , actions_table :=
               (fresh_compilation_result_name s, s.source_actions) :: s.actions_table
           , listCalls := s.listCalls + 1
           , createCalls := s.createCalls + 1
           , queryCalls := s.queryCalls + 1 }) := by
  simp only [load_dataform_asset_check_specs, create_compilation_result,
    query_compilation_result, get_latest_compilation_result_name_st,
    list_compilation_results, get_latest_on_created]
  rw [if_neg (fresh_name_ne_empty s)]
  simp only [query_compilation_result_actions, List.find?]
  simp

/-- Claim C9 counterexample: eager construction does not create a single
brand-new compilation snapshot — it issues two create RPCs (one while loading
assets, a second while loading checks), registering two distinct snapshots, so
the catalog is not built from "the single freshly created compilation". -/
theorem eager_init_two_creates :
    (DataformRepositoryResource_init "dev" 1440 false empty_remote).2.createCalls = 2
    ∧ (DataformRepositoryResource_init "dev" 1440 false
        empty_remote).2.compilation_results.map (fun cr => cr.name)
      = ["compilationResults/1", "compilationResults/0"] := by
  exact ⟨rfl, rfl⟩

/-- Claim C9 (amended): eager construction immediately creates a brand-new
compilation snapshot for the environment twice — once while loading assets and
once while loading checks (two creates, two list resolutions, two action
queries in total) — each load re-resolving the latest matching snapshot (which
is the one it just created) and building from its actions; both artifacts
therefore reflect the current source state, but not one single shared
compilation. -/
theorem eager_init_double_compile (environment : String) (lag : ℚ)
    (s : RemoteState) :
    (DataformRepositoryResource_init environment lag false s).2.createCalls
        = s.createCalls + 2
    ∧ (DataformRepositoryResource_init environment lag false s).2.listCalls
        = s.listCalls + 2
    ∧ (DataformRepositoryResource_init environment lag false s).2.queryCalls
        = s.queryCalls + 2
    ∧ (DataformRepositoryResource_init environment lag false s).1._assets
        = some ((process_assets lag none s.source_actions).1)
    ∧ (DataformRepositoryResource_init environment lag false s).1._asset_checks
        = some ((process_asset_checks_eager s.source_actions).1) := by
  have h1 := load_dataform_assets_eq environment lag s
  rw [DataformRepositoryResource_init, if_neg (by simp : ¬ (false = true))]
  simp only [h1]
  rw [load_dataform_asset_check_specs_eq]
  refine ⟨?_, ?_, ?_, ?_, ?_⟩ <;> trivial
